import Mathlib

/-!
Verification of the fman "Sync selected files to other pane" plugin
(`sync_selected_files_to_other_pane_for_windows/__init__.py`).

The development shallowly embeds:
* `basename` / `dirname` — the `os.path` helpers on Windows-style paths
  (split at the last `/` or `\` separator);
* `build_command` — the robocopy command line built in `SyncFilesTask.__call__`;
* `interpret_robocopy_exit_code` — the exit-code classifier
  (`SyncFilesTask._interpret_robocopy_exit_code`);
* `runItems` / `runTask` — a trace semantics of `SyncFilesTask.__call__`:
  each item is driven by an `ItemWorld` oracle giving the timestamp taken
  when the command is logged, the stdout lines produced by the robocopy
  process, its exit code and stderr, and the item's fate (`ItemOutcome`):
  the process runs to completion (with the pane-reload callback possibly
  raising), `check_canceled` raises `Task.Canceled` after a given number of
  output lines, or `subprocess.Popen` raises.  The run is recorded as a
  `RunOut`: the log records written, the status messages shown, the
  `set_text` / `set_progress` calls, the reload-callback invocations, the
  `kill()` calls, and the final control-flow result (normal return,
  re-raised cancellation, or re-raised exception);
* `submitExec` — the log-file handling of
  `SyncSelectedFilesToOtherPaneForWindows.__call__` (delete the existing
  `sync_commands.log`, then run the task, which appends to it).
-/

/-- A path-separator character as treated by `os.path` on Windows
(`ntpath` splits on both `/` and `\`). -/
def isSep (c : Char) : Bool := c == '/' || c == '\\'

/-- Characters of `os.path.basename`: everything after the last separator. -/
def basenameChars (cs : List Char) : List Char :=
  (cs.reverse.takeWhile (fun c => !isSep c)).reverse

/-- `os.path.basename` (drive-letter-free paths). -/
def basename (p : String) : String := String.mk (basenameChars p.data)

/-- Characters of `os.path.dirname`: everything up to the last separator,
with trailing separators stripped unless the head is all separators. -/
def dirnameChars (cs : List Char) : List Char :=
  let head := (cs.reverse.dropWhile (fun c => !isSep c)).reverse
  if head.all isSep then head else (head.reverse.dropWhile isSep).reverse

/-- `os.path.dirname` (drive-letter-free paths). -/
def dirname (p : String) : String := String.mk (dirnameChars p.data)

/-- The robocopy command line built in `SyncFilesTask.__call__`:
directories are copied recursively into `target/basename(source)` with
`/e /MT:32 /bytes /np`; single files are copied from `dirname(source)` into
`target` with `/MT:32 /bytes /np`. -/
def build_command (source_path : String) (is_dir : Bool) (target_path : String) : String :=
  if is_dir then
    "robocopy \"" ++ source_path ++ "\" \"" ++ (target_path ++ "/" ++ basename source_path) ++
      "\" /e /MT:32 /bytes /np"
  else
    "robocopy \"" ++ dirname source_path ++ "\" \"" ++ target_path ++ "\" \"" ++
      basename source_path ++ "\" /MT:32 /bytes /np"

/-- The per-code message dictionary lookup (`{0: ..., ..., 7: ...}.get(exit_code, fallback)`)
used in the success branch of `_interpret_robocopy_exit_code`. -/
def successMessage (exit_code : Int) : String :=
  if exit_code = 0 then "No files copied"
  else if exit_code = 1 then "Files copied successfully"
  else if exit_code = 2 then "Extra files or directories detected"
  else if exit_code = 3 then "Some files copied, extra files detected"
  else if exit_code = 4 then "Some mismatched files or directories detected"
  else if exit_code = 5 then "Some files copied, some failed"
  else if exit_code = 6 then "Additional files and mismatched files exist"
  else if exit_code = 7 then "Files and directories copied with errors"
  else "Operation completed with code " ++ toString exit_code

/-- `SyncFilesTask._interpret_robocopy_exit_code`: `(success, message)` for a
robocopy exit code. -/
def interpret_robocopy_exit_code (exit_code : Int) : Bool × String :=
  if exit_code ≤ 7 then
    (true, successMessage exit_code)
  else if exit_code = 8 then
    (false, "Some files or directories could not be copied")
  else
    (false, "Serious error occurred (code " ++ toString exit_code ++ ")")

/-- One element of `files_to_sync`: a `(source_path, is_dir)` pair. -/
structure SyncItem where
  source_path : String
  is_dir : Bool
deriving Repr, DecidableEq

/-- The fate of one loop iteration of `SyncFilesTask.__call__`:
the item runs to completion (with `target_pane.reload()` possibly raising the
given exception), `check_canceled()` raises `Task.Canceled` after the given
number of stdout lines have been read (with the process still running or not),
or `subprocess.Popen` raises the given exception. -/
inductive ItemOutcome where
  | finish (reloadError : Option String)
  | cancelAfter (linesRead : Nat) (stillRunning : Bool)
  | spawnError (msg : String)
deriving Repr, DecidableEq

/-- The environment oracle for one item: the `datetime.now()` timestamp taken
when the command is logged, the stdout lines `readline` returns, the process
exit code and drained stderr, and the iteration's fate. -/
structure ItemWorld where
  timestamp : String
  lines : List String
  exitCode : Int
  stderrText : String
  outcome : ItemOutcome
deriving Repr, DecidableEq

/-- One record written to `sync_commands.log` by `SyncFilesTask.__call__`. -/
inductive LogRecord where
  | command (ts cmd : String)
  | outputLine (line : String)
  | completion (ts msg : String) (code : Int)
  | stderrRecord (ts content : String)
  | canceled (ts : String)
  | errorRecord (ts text : String)
deriving Repr, DecidableEq

/-- The `f'[{timestamp}] {payload}\n'` line format used for timestamped writes. -/
def stampLine (ts payload : String) : String :=
  "[" ++ ts ++ "] " ++ payload ++ "\n"

/-- The exact text each record contributes to the log file.  Output lines are
written verbatim (`f.write(output_line)`), all other records through the
`[timestamp]` format. -/
def LogRecord.render : LogRecord → String
  | .command ts cmd => stampLine ts cmd
  | .outputLine line => line
  | .completion ts msg code => stampLine ts (msg ++ " (Exit Code: " ++ toString code ++ ")")
  | .stderrRecord ts content => stampLine ts ("Errors: " ++ content)
  | .canceled ts => stampLine ts "Task canceled by user"
  | .errorRecord ts text => stampLine ts ("Error: " ++ text)

/-- How `SyncFilesTask.__call__` returns to the fman task host: normal return,
`Task.Canceled` re-raised by the cancellation handler, or an unclassified
exception re-raised by the generic handler. -/
inductive TaskResult where
  | completed
  | canceled
  | failed (msg : String)
deriving Repr, DecidableEq

/-- Everything one run of `SyncFilesTask.__call__` does, in order per channel:
log records written, `show_status_message` calls, `set_text` calls,
`set_progress` calls, `target_pane.reload()` invocations, `kill()` calls,
whether a spawned process is still running at the end, and the control-flow
result. -/
structure RunOut where
  log : List LogRecord
  statusMessages : List String
  texts : List String
  progressCalls : List Nat
  reloadCalls : Nat
  kills : Nat
  processRunning : Bool
  result : TaskResult
deriving Repr, DecidableEq

/-- The run in which nothing is left to do. -/
def emptyOut : RunOut :=
  { log := [], statusMessages := [], texts := [], progressCalls := [],
    reloadCalls := 0, kills := 0, processRunning := false, result := .completed }

/-- Sequencing: `a` happens to completion, then `b`. -/
def RunOut.seq (a b : RunOut) : RunOut :=
  { log := a.log ++ b.log,
    statusMessages := a.statusMessages ++ b.statusMessages,
    texts := a.texts ++ b.texts,
    progressCalls := a.progressCalls ++ b.progressCalls,
    reloadCalls := a.reloadCalls + b.reloadCalls,
    kills := a.kills + b.kills,
    processRunning := b.processRunning,
    result := b.result }

/-- The `f'Copying {i} of {N}: {filename}'` status text. -/
def initialText (i N : Nat) (filename : String) : String :=
  "Copying " ++ toString i ++ " of " ++ toString N ++ ": " ++ filename

/-- Python's `str.strip()` on whitespace. -/
def pyStrip (s : String) : String :=
  String.mk (((s.data.dropWhile Char.isWhitespace).reverse.dropWhile Char.isWhitespace).reverse)

/-- Python's `"%" in output_line`. -/
def containsPercent (line : String) : Bool := line.data.contains '%'

/-- The `set_text` updates issued inside the read loop: one per output line
containing `%`, with the line stripped. -/
def percentTexts (i N : Nat) (filename : String) (lines : List String) : List String :=
  (lines.filter containsPercent).map
    (fun line => initialText i N filename ++ " - " ++ pyStrip line)

/-- The records written after `communicate()`: the completion line and, when
stderr is non-empty, the stderr line. -/
def completionRecords (w : ItemWorld) : List LogRecord :=
  [LogRecord.completion w.timestamp (interpret_robocopy_exit_code w.exitCode).2 w.exitCode] ++
    (if w.stderrText = "" then [] else [LogRecord.stderrRecord w.timestamp w.stderrText])

/-- All records one item writes when its process runs to completion:
command, every output line verbatim, then the completion records. -/
def itemTrace (tgt : String) (item : SyncItem) (w : ItemWorld) : List LogRecord :=
  [LogRecord.command w.timestamp (build_command item.source_path item.is_dir tgt)] ++
    w.lines.map LogRecord.outputLine ++ completionRecords w

/-- All `set_text` calls of one completed item. -/
def itemTexts (N i : Nat) (item : SyncItem) (w : ItemWorld) : List String :=
  initialText i N (basename item.source_path) ::
    percentTexts i N (basename item.source_path) w.lines

/-- The warning status message shown for an unsuccessful verdict. -/
def warningMsg (item : SyncItem) (w : ItemWorld) : String :=
  "Warning: " ++ (interpret_robocopy_exit_code w.exitCode).2 ++
    " while copying " ++ basename item.source_path

/-- The status messages of one completed item: the warning, when the verdict
is unsuccessful. -/
def itemWarnings (item : SyncItem) (w : ItemWorld) : List String :=
  if (interpret_robocopy_exit_code w.exitCode).1 then [] else [warningMsg item w]

/-- Trace of one item whose process completes and whose reload succeeds. -/
def finishOut (tgt : String) (N i : Nat) (item : SyncItem) (w : ItemWorld) : RunOut :=
  { log := itemTrace tgt item w,
    statusMessages := itemWarnings item w,
    texts := itemTexts N i item w,
    progressCalls := [i],
    reloadCalls := 1,
    kills := 0,
    processRunning := false,
    result := .completed }

/-- Trace of one item whose process completes but whose `reload()` raises:
the generic handler appends an Error record and re-raises. -/
def reloadErrorOut (tgt : String) (N i : Nat) (item : SyncItem) (w : ItemWorld)
    (e : String) : RunOut :=
  { log := itemTrace tgt item w ++ [LogRecord.errorRecord w.timestamp e],
    statusMessages := itemWarnings item w,
    texts := itemTexts N i item w,
    progressCalls := [i],
    reloadCalls := 1,
    kills := 0,
    processRunning := false,
    result := .failed e }

/-- Trace of the item at which `check_canceled()` raises `Task.Canceled` after
`p` output lines: the handler kills the process when it is still running,
appends the Cancelled record, shows "Sync canceled" and re-raises. -/
def cancelOut (tgt : String) (N i : Nat) (item : SyncItem) (w : ItemWorld)
    (p : Nat) (still : Bool) : RunOut :=
  { log := [LogRecord.command w.timestamp (build_command item.source_path item.is_dir tgt)] ++
      (w.lines.take p).map LogRecord.outputLine ++ [LogRecord.canceled w.timestamp],
    statusMessages := ["Sync canceled"],
    texts := initialText i N (basename item.source_path) ::
      percentTexts i N (basename item.source_path) (w.lines.take p),
    progressCalls := [],
    reloadCalls := 0,
    kills := if still then 1 else 0,
    processRunning := false,
    result := .canceled }

/-- Trace of the item at which `subprocess.Popen` raises: the command was
already logged; the generic handler appends an Error record and re-raises. -/
def spawnErrorOut (tgt : String) (N i : Nat) (item : SyncItem) (w : ItemWorld)
    (msg : String) : RunOut :=
  { log := [LogRecord.command w.timestamp (build_command item.source_path item.is_dir tgt),
      LogRecord.errorRecord w.timestamp msg],
    statusMessages := [],
    texts := [initialText i N (basename item.source_path)],
    progressCalls := [],
    reloadCalls := 0,
    kills := 0,
    processRunning := false,
    result := .failed msg }

/-- The `for i, (source_path, is_dir) in enumerate(self._files, 1)` loop of
`SyncFilesTask.__call__`, together with the two exception handlers at the task
boundary, as a trace: `i` is the 1-based index of the first remaining item and
`N = len(self._files)`. -/
def runItems (tgt : String) (N : Nat) : Nat → List (SyncItem × ItemWorld) → RunOut
  | _, [] => emptyOut
  | i, (item, w) :: rest =>
    match w.outcome with
    | ItemOutcome.spawnError msg => spawnErrorOut tgt N i item w msg
    | ItemOutcome.cancelAfter p still => cancelOut tgt N i item w p still
    | ItemOutcome.finish (some e) => reloadErrorOut tgt N i item w e
    | ItemOutcome.finish none =>
        RunOut.seq (finishOut tgt N i item w) (runItems tgt N (i + 1) rest)

/-- A full run of `SyncFilesTask.__call__` over the given items. -/
def runTask (tgt : String) (itemsW : List (SyncItem × ItemWorld)) : RunOut :=
  runItems tgt itemsW.length 1 itemsW

/-- The log records of a list of items that all run to completion, in item
order: the concatenation of the per-item traces. -/
def tracesOf (tgt : String) : List (SyncItem × ItemWorld) → List LogRecord
  | [] => []
  | x :: rest => itemTrace tgt x.1 x.2 ++ tracesOf tgt rest

/-- The warnings of a list of items that all run to completion. -/
def warningsOf : List (SyncItem × ItemWorld) → List String
  | [] => []
  | x :: rest => itemWarnings x.1 x.2 ++ warningsOf rest

/-- The `set_text` calls of a list of items that all run to completion. -/
def textsOf (N : Nat) : Nat → List (SyncItem × ItemWorld) → List String
  | _, [] => []
  | i, x :: rest => itemTexts N i x.1 x.2 ++ textsOf N (i + 1) rest

/-- The full trace of a list of items that all run to completion. -/
def allNormalOut (tgt : String) (N : Nat) : Nat → List (SyncItem × ItemWorld) → RunOut
  | _, [] => emptyOut
  | i, x :: rest => RunOut.seq (finishOut tgt N i x.1 x.2) (allNormalOut tgt N (i + 1) rest)

/-- `if os.path.exists(log_file): os.remove(log_file)` on the log-file
content (`none` models an absent file). -/
def deleteIfExists (content : Option String) : Option String :=
  if content.isSome then none else content

/-- One `open(log_file, 'a')` / `write` / close cycle: creates the file when
absent, appends the record's text. -/
def appendRendered (content : Option String) (r : LogRecord) : Option String :=
  some (content.getD "" ++ r.render)

/-- The rendered text of a whole log. -/
def renderedLog (l : List LogRecord) : String :=
  l.foldl (fun acc r => acc ++ r.render) ""

/-- `SyncSelectedFilesToOtherPaneForWindows.__call__` as it affects
`sync_commands.log`: delete the existing file, then run the submitted
`SyncFilesTask`, whose writes append to it. -/
def submitExec (content : Option String) (tgt : String)
    (itemsW : List (SyncItem × ItemWorld)) : Option String :=
  (runTask tgt itemsW).log.foldl appendRendered (deleteIfExists content)

/-- `True` exactly on raw process-output records. -/
def LogRecord.isOutputLine : LogRecord → Bool
  | .outputLine _ => true
  | _ => false

/-- Whether a string starts with the `[` that opens a timestamp. -/
def startsWithLBracket (s : String) : Bool := s.data.head? == some '['

theorem runItems_nil (tgt : String) (N i : Nat) : runItems tgt N i [] = emptyOut := rfl

theorem runItems_cons_spawn (tgt : String) (N i : Nat) (item : SyncItem) (w : ItemWorld)
    (rest : List (SyncItem × ItemWorld)) (msg : String)
    (hw : w.outcome = ItemOutcome.spawnError msg) :
    runItems tgt N i ((item, w) :: rest) = spawnErrorOut tgt N i item w msg := by
  obtain ⟨ts, ls, ec, se, oc⟩ := w
  have h : oc = ItemOutcome.spawnError msg := hw
  subst h
  rfl

theorem runItems_cons_cancel (tgt : String) (N i : Nat) (item : SyncItem) (w : ItemWorld)
    (rest : List (SyncItem × ItemWorld)) (p : Nat) (still : Bool)
    (hw : w.outcome = ItemOutcome.cancelAfter p still) :
    runItems tgt N i ((item, w) :: rest) = cancelOut tgt N i item w p still := by
  obtain ⟨ts, ls, ec, se, oc⟩ := w
  have h : oc = ItemOutcome.cancelAfter p still := hw
  subst h
  rfl

theorem runItems_cons_reload (tgt : String) (N i : Nat) (item : SyncItem) (w : ItemWorld)
    (rest : List (SyncItem × ItemWorld)) (e : String)
    (hw : w.outcome = ItemOutcome.finish (some e)) :
    runItems tgt N i ((item, w) :: rest) = reloadErrorOut tgt N i item w e := by
  obtain ⟨ts, ls, ec, se, oc⟩ := w
  have h : oc = ItemOutcome.finish (some e) := hw
  subst h
  rfl

theorem runItems_cons_ok (tgt : String) (N i : Nat) (item : SyncItem) (w : ItemWorld)
    (rest : List (SyncItem × ItemWorld))
    (hw : w.outcome = ItemOutcome.finish none) :
    runItems tgt N i ((item, w) :: rest) =
      RunOut.seq (finishOut tgt N i item w) (runItems tgt N (i + 1) rest) := by
  obtain ⟨ts, ls, ec, se, oc⟩ := w
  have h : oc = ItemOutcome.finish none := hw
  subst h
  rfl

theorem seq_empty_left (b : RunOut) : RunOut.seq emptyOut b = b := by
  obtain ⟨l, s, t, p, r, k, pr, res⟩ := b
  simp [RunOut.seq, emptyOut]

theorem seq_assoc (a b c : RunOut) :
    RunOut.seq (RunOut.seq a b) c = RunOut.seq a (RunOut.seq b c) := by
  simp [RunOut.seq, List.append_assoc, Nat.add_assoc]

theorem range'_cons (s n : Nat) : List.range' s (n + 1) = s :: List.range' (s + 1) n := rfl

theorem allNormalOut_eq (tgt : String) (N : Nat) :
    ∀ (items : List (SyncItem × ItemWorld)) (i : Nat),
      allNormalOut tgt N i items =
        { log := tracesOf tgt items, statusMessages := warningsOf items,
          texts := textsOf N i items, progressCalls := List.range' i items.length,
          reloadCalls := items.length, kills := 0, processRunning := false,
          result := .completed }
  | [], i => by simp [allNormalOut, emptyOut, tracesOf, warningsOf, textsOf]
  | x :: rest, i => by
      have ih := allNormalOut_eq tgt N rest (i + 1)
      simp only [allNormalOut, ih]
      simp [RunOut.seq, finishOut, tracesOf, warningsOf, textsOf, range'_cons]
      omega

theorem runItems_append_normal (tgt : String) (N : Nat) :
    ∀ (pre : List (SyncItem × ItemWorld)) (rest : List (SyncItem × ItemWorld)) (i : Nat),
      (∀ x ∈ pre, x.2.outcome = ItemOutcome.finish none) →
      runItems tgt N i (pre ++ rest) =
        RunOut.seq (allNormalOut tgt N i pre) (runItems tgt N (i + pre.length) rest)
  | [], rest, i, _ => by simp [allNormalOut, seq_empty_left]
  | x :: pre', rest, i, h => by
      obtain ⟨item, w⟩ := x
      have hx : w.outcome = ItemOutcome.finish none := h (item, w) (List.mem_cons_self _ _)
      have hidx : i + (pre'.length + 1) = (i + 1) + pre'.length := by omega
      rw [List.cons_append, runItems_cons_ok tgt N i item w (pre' ++ rest) hx,
        runItems_append_normal tgt N pre' rest (i + 1)
          (fun y hy => h y (List.mem_cons_of_mem _ hy)),
        ← seq_assoc]
      simp only [allNormalOut, List.length_cons, hidx]

theorem runItems_all_normal (tgt : String) (N : Nat)
    (items : List (SyncItem × ItemWorld)) (i : Nat)
    (h : ∀ x ∈ items, x.2.outcome = ItemOutcome.finish none) :
    runItems tgt N i items = allNormalOut tgt N i items := by
  have h2 := runItems_append_normal tgt N items [] i h
  rw [List.append_nil, runItems_nil] at h2
  rw [h2, allNormalOut_eq tgt N items i]
  simp [RunOut.seq, emptyOut]

theorem completion_mem_tracesOf (tgt : String) :
    ∀ (items : List (SyncItem × ItemWorld)) (x : SyncItem × ItemWorld), x ∈ items →
      LogRecord.completion x.2.timestamp (interpret_robocopy_exit_code x.2.exitCode).2 x.2.exitCode
        ∈ tracesOf tgt items
  | y :: rest, x, hx => by
      rcases List.mem_cons.mp hx with h | h
      · subst h
        simp [tracesOf, itemTrace, completionRecords]
      · simp only [tracesOf, List.mem_append]
        exact Or.inr (completion_mem_tracesOf tgt rest x h)

theorem warning_mem_warningsOf :
    ∀ (items : List (SyncItem × ItemWorld)) (x : SyncItem × ItemWorld), x ∈ items →
      (interpret_robocopy_exit_code x.2.exitCode).1 = false →
      warningMsg x.1 x.2 ∈ warningsOf items
  | y :: rest, x, hx, hfail => by
      rcases List.mem_cons.mp hx with h | h
      · subst h
        simp [warningsOf, itemWarnings, hfail]
      · simp only [warningsOf, List.mem_append]
        exact Or.inr (warning_mem_warningsOf rest x h hfail)

theorem errorRecord_not_mem_itemTrace (tgt : String) (item : SyncItem) (w : ItemWorld)
    (ts m : String) : LogRecord.errorRecord ts m ∉ itemTrace tgt item w := by
  intro hmem
  by_cases hse : w.stderrText = "" <;>
    simp [itemTrace, completionRecords, hse] at hmem

theorem errorRecord_not_mem_tracesOf (tgt ts m : String) :
    ∀ (items : List (SyncItem × ItemWorld)),
      LogRecord.errorRecord ts m ∉ tracesOf tgt items
  | [] => by simp [tracesOf]
  | x :: rest => by
      simp only [tracesOf, List.mem_append, not_or]
      exact ⟨errorRecord_not_mem_itemTrace tgt x.1 x.2 ts m,
        errorRecord_not_mem_tracesOf tgt ts m rest⟩

theorem runItems_progress_mono (tgt : String) (N : Nat) :
    ∀ (items : List (SyncItem × ItemWorld)) (i : Nat),
      ∃ m, m ≤ items.length ∧ (runItems tgt N i items).progressCalls = List.range' i m
  | [], i => ⟨0, by simp, by simp [runItems_nil, emptyOut]⟩
  | (item, w) :: rest, i => by
      cases hoc : w.outcome with
      | spawnError msg =>
          refine ⟨0, by simp, ?_⟩
          rw [runItems_cons_spawn tgt N i item w rest msg hoc]
          rfl
      | cancelAfter p still =>
          refine ⟨0, by simp, ?_⟩
          rw [runItems_cons_cancel tgt N i item w rest p still hoc]
          rfl
      | finish r =>
          cases r with
          | some e =>
              refine ⟨1, by simp, ?_⟩
              rw [runItems_cons_reload tgt N i item w rest e hoc]
              rfl
          | none =>
              obtain ⟨m, hm, hpc⟩ := runItems_progress_mono tgt N rest (i + 1)
              refine ⟨m + 1, by simp; omega, ?_⟩
              rw [runItems_cons_ok tgt N i item w rest hoc]
              simp [RunOut.seq, finishOut, hpc, range'_cons]

theorem itemTrace_record_shape (tgt : String) (item : SyncItem) (w : ItemWorld) (r : LogRecord)
    (hr : r ∈ itemTrace tgt item w) :
    (∃ l, r = LogRecord.outputLine l ∧ l ∈ w.lines) ∨
    (∃ payload, LogRecord.render r = stampLine w.timestamp payload) := by
  simp only [itemTrace, completionRecords, List.mem_append, List.mem_singleton,
    List.mem_map] at hr
  rcases hr with (h | ⟨l, hl, h⟩) | h | h
  · exact Or.inr ⟨_, by rw [h]; rfl⟩
  · exact Or.inl ⟨l, by rw [← h], hl⟩
  · exact Or.inr ⟨_, by rw [h]; rfl⟩
  · split at h
    · simp at h
    · simp only [List.mem_singleton] at h
      exact Or.inr ⟨_, by rw [h]; rfl⟩

theorem runItems_log_shape (tgt : String) (N : Nat) :
    ∀ (items : List (SyncItem × ItemWorld)) (i : Nat) (r : LogRecord),
      r ∈ (runItems tgt N i items).log →
      (∃ l, r = LogRecord.outputLine l ∧ ∃ x ∈ items, l ∈ x.2.lines) ∨
      (∃ x ∈ items, ∃ payload, LogRecord.render r = stampLine x.2.timestamp payload)
  | [], i, r, hr => by simp [runItems_nil, emptyOut] at hr
  | (item, w) :: rest, i, r, hr => by
      cases hoc : w.outcome with
      | spawnError msg =>
          rw [runItems_cons_spawn tgt N i item w rest msg hoc] at hr
          simp only [spawnErrorOut, List.mem_cons, List.not_mem_nil, or_false] at hr
          rcases hr with h | h
          · exact Or.inr ⟨(item, w), by simp, _, by rw [h]; rfl⟩
          · exact Or.inr ⟨(item, w), by simp, _, by rw [h]; rfl⟩
      | cancelAfter p still =>
          rw [runItems_cons_cancel tgt N i item w rest p still hoc] at hr
          simp only [cancelOut, List.mem_append, List.mem_singleton, List.mem_map] at hr
          rcases hr with (h | ⟨l, hl, h⟩) | h
          · exact Or.inr ⟨(item, w), by simp, _, by rw [h]; rfl⟩
          · exact Or.inl ⟨l, by rw [← h],
              ⟨(item, w), by simp, List.take_subset p w.lines hl⟩⟩
          · exact Or.inr ⟨(item, w), by simp, _, by rw [h]; rfl⟩
      | finish reloadErr =>
          cases reloadErr with
          | some e =>
              rw [runItems_cons_reload tgt N i item w rest e hoc] at hr
              simp only [reloadErrorOut, List.mem_append, List.mem_singleton] at hr
              rcases hr with h | h
              · rcases itemTrace_record_shape tgt item w r h with ⟨l, hl1, hl2⟩ | ⟨pl, hpl⟩
                · exact Or.inl ⟨l, hl1, ⟨(item, w), by simp, hl2⟩⟩
                · exact Or.inr ⟨(item, w), by simp, pl, hpl⟩
              · exact Or.inr ⟨(item, w), by simp, _, by rw [h]; rfl⟩
          | none =>
              rw [runItems_cons_ok tgt N i item w rest hoc] at hr
              simp only [RunOut.seq, finishOut, List.mem_append] at hr
              rcases hr with h | h
              · rcases itemTrace_record_shape tgt item w r h with ⟨l, hl1, hl2⟩ | ⟨pl, hpl⟩
                · exact Or.inl ⟨l, hl1, ⟨(item, w), by simp, hl2⟩⟩
                · exact Or.inr ⟨(item, w), by simp, pl, hpl⟩
              · rcases runItems_log_shape tgt N rest (i + 1) r h with
                  ⟨l, hl1, x, hx, hl2⟩ | ⟨x, hx, pl, hpl⟩
                · exact Or.inl ⟨l, hl1, x, List.mem_cons_of_mem _ hx, hl2⟩
                · exact Or.inr ⟨x, List.mem_cons_of_mem _ hx, pl, hpl⟩

/-- C1: `_interpret_robocopy_exit_code` returns `success = true` for every code
0–7 with the per-code message table (0 = nothing copied, ..., 7 = copied with
errors), `success = false` with "Some files or directories could not be copied"
for code 8, and `success = false` with the "Serious error occurred (code N)"
message for every code above 8; in particular 7 maps to true and 8 to false. -/
theorem C1_exit_code_classification (n : Int) :
    (0 ≤ n → n ≤ 7 → (interpret_robocopy_exit_code n).1 = true)
  ∧ (interpret_robocopy_exit_code 0 = (true, "No files copied")
      ∧ interpret_robocopy_exit_code 1 = (true, "Files copied successfully")
      ∧ interpret_robocopy_exit_code 2 = (true, "Extra files or directories detected")
      ∧ interpret_robocopy_exit_code 3 = (true, "Some files copied, extra files detected")
      ∧ interpret_robocopy_exit_code 4 = (true, "Some mismatched files or directories detected")
      ∧ interpret_robocopy_exit_code 5 = (true, "Some files copied, some failed")
      ∧ interpret_robocopy_exit_code 6 = (true, "Additional files and mismatched files exist")
      ∧ interpret_robocopy_exit_code 7 = (true, "Files and directories copied with errors")
      ∧ interpret_robocopy_exit_code 8 = (false, "Some files or directories could not be copied"))
  ∧ (8 < n → interpret_robocopy_exit_code n
        = (false, "Serious error occurred (code " ++ toString n ++ ")")) := by
  refine ⟨?_, ⟨by decide, by decide, by decide, by decide, by decide, by decide, by decide,
    by decide, by decide⟩, ?_⟩
  · intro _ h7
    simp [interpret_robocopy_exit_code, h7]
  · intro h
    have h1 : ¬ n ≤ 7 := by omega
    have h2 : ¬ n = 8 := by omega
    simp [interpret_robocopy_exit_code, h1, h2]

theorem C1_exit_code_classification_witness :
    (interpret_robocopy_exit_code 7).1 = true
  ∧ interpret_robocopy_exit_code 8 = (false, "Some files or directories could not be copied")
  ∧ interpret_robocopy_exit_code 9
      = (false, "Serious error occurred (code " ++ toString (9 : Int) ++ ")") :=
  ⟨(C1_exit_code_classification 7).1 (by decide) (by decide),
   (C1_exit_code_classification 0).2.1.2.2.2.2.2.2.2.2,
   (C1_exit_code_classification 9).2.2 (by decide)⟩

/-- C2: the command builder is a pure deterministic function of
`(source_path, is_directory, target_directory)`: a directory is copied
recursively into `target/basename(source)` with the `/e` recursion flag, the
fixed `/MT:32` thread count, and the `/bytes` and `/np` flags; a file is
copied as `basename(source)` from `dirname(source)` into `target` with the
same `/MT:32 /bytes /np` flags.  Being a Lean function of its three
arguments, it has no side effects. -/
theorem C2_command_builder (s t : String) :
    build_command s true t
      = "robocopy \"" ++ s ++ "\" \"" ++ (t ++ "/" ++ basename s) ++ "\" /e /MT:32 /bytes /np"
  ∧ build_command s false t
      = "robocopy \"" ++ dirname s ++ "\" \"" ++ t ++ "\" \"" ++
          basename s ++ "\" /MT:32 /bytes /np"
  ∧ build_command "/a/b" true "/c" = "robocopy \"/a/b\" \"/c/b\" /e /MT:32 /bytes /np"
  ∧ build_command "/a/b/file.txt" false "/c"
      = "robocopy \"/a/b\" \"/c\" \"file.txt\" /MT:32 /bytes /np" :=
  ⟨rfl, rfl, by decide, by decide⟩

/-- C10: because the success test is `exit_code <= 7`, every negative exit
code is classified `success = true` with the generic fallback message
"Operation completed with code n"; and for the codes 0–7, which the explicit
message table covers, the fallback message is never returned. -/
theorem C10_negative_exit_codes (n : Int) :
    (n < 0 → interpret_robocopy_exit_code n
        = (true, "Operation completed with code " ++ toString n))
  ∧ (0 ≤ n → n ≤ 7 →
      (interpret_robocopy_exit_code n).2 ≠ "Operation completed with code " ++ toString n) := by
  constructor
  · intro h
    have h7 : n ≤ 7 := by omega
    have h0 : ¬ n = 0 := by omega
    have h1 : ¬ n = 1 := by omega
    have h2 : ¬ n = 2 := by omega
    have h3 : ¬ n = 3 := by omega
    have h4 : ¬ n = 4 := by omega
    have h5 : ¬ n = 5 := by omega
    have h6 : ¬ n = 6 := by omega
    have h7' : ¬ n = 7 := by omega
    simp [interpret_robocopy_exit_code, successMessage, h7, h0, h1, h2, h3, h4, h5, h6, h7']
  · intro h0 h7
    interval_cases n <;> decide

theorem C10_negative_exit_codes_witness :
    interpret_robocopy_exit_code (-2)
      = (true, "Operation completed with code " ++ toString (-2 : Int))
  ∧ (interpret_robocopy_exit_code 3).2 ≠ "Operation completed with code " ++ toString (3 : Int) :=
  ⟨(C10_negative_exit_codes (-2)).1 (by decide),
   (C10_negative_exit_codes 3).2 (by decide) (by decide)⟩

/-- C7: when every item's process completes and every reload succeeds, the
engine processes the items sequentially in caller order (the log is the
concatenation of the per-item traces), reports progress exactly as
`1, 2, ..., N` with one `set_progress` call per item, invokes the refresh
callback once per item, and returns normally; moreover on any run whatsoever
the sequence of `set_progress` calls is an initial segment `1, ..., m` of
`1, ..., N`, so the completed count never decreases. -/
theorem C7_sequential_progress (tgt : String) (itemsW : List (SyncItem × ItemWorld))
    (h : ∀ x ∈ itemsW, x.2.outcome = ItemOutcome.finish none) :
    (runTask tgt itemsW).result = TaskResult.completed
  ∧ (runTask tgt itemsW).progressCalls = List.range' 1 itemsW.length
  ∧ (runTask tgt itemsW).reloadCalls = itemsW.length
  ∧ (runTask tgt itemsW).log = tracesOf tgt itemsW
  ∧ ∀ other : List (SyncItem × ItemWorld),
      ∃ m, m ≤ other.length ∧ (runTask tgt other).progressCalls = List.range' 1 m := by
  simp only [runTask]
  rw [runItems_all_normal tgt itemsW.length itemsW 1 h, allNormalOut_eq]
  refine ⟨rfl, rfl, rfl, rfl, ?_⟩
  intro other
  exact runItems_progress_mono tgt other.length other 1

theorem C7_sequential_progress_witness :
    (runTask "D:/dst"
      [(⟨"C:/src/a.txt", false⟩,
        ⟨"2024-01-01 10:00:00", ["a.txt 100%\n"], 1, "", ItemOutcome.finish none⟩),
       (⟨"C:/src/dir1", true⟩,
        ⟨"2024-01-01 10:00:01", [], 0, "", ItemOutcome.finish none⟩)]).result
      = TaskResult.completed
  ∧ (runTask "D:/dst"
      [(⟨"C:/src/a.txt", false⟩,
        ⟨"2024-01-01 10:00:00", ["a.txt 100%\n"], 1, "", ItemOutcome.finish none⟩),
       (⟨"C:/src/dir1", true⟩,
        ⟨"2024-01-01 10:00:01", [], 0, "", ItemOutcome.finish none⟩)]).progressCalls
      = List.range' 1 2 := by
  have h := C7_sequential_progress "D:/dst"
    [(⟨"C:/src/a.txt", false⟩,
      ⟨"2024-01-01 10:00:00", ["a.txt 100%\n"], 1, "", ItemOutcome.finish none⟩),
     (⟨"C:/src/dir1", true⟩,
      ⟨"2024-01-01 10:00:01", [], 0, "", ItemOutcome.finish none⟩)] (by decide)
  exact ⟨h.1, h.2.1⟩

/-- C4: an item whose exit-code verdict is unsuccessful produces a warning
status message naming the file and the failure reason, and does not abort the
task: the run still completes, progress is still advanced once per item
(including the failed one), and the refresh callback is still invoked once per
item; the failed item's completion record is in the log. -/
theorem C4_partial_failure_tolerance (tgt : String)
    (pre post : List (SyncItem × ItemWorld)) (item : SyncItem) (w : ItemWorld)
    (hpre : ∀ x ∈ pre, x.2.outcome = ItemOutcome.finish none)
    (hw : w.outcome = ItemOutcome.finish none)
    (hpost : ∀ x ∈ post, x.2.outcome = ItemOutcome.finish none)
    (hfail : (interpret_robocopy_exit_code w.exitCode).1 = false) :
    warningMsg item w ∈ (runTask tgt (pre ++ (item, w) :: post)).statusMessages
  ∧ warningMsg item w = "Warning: " ++ (interpret_robocopy_exit_code w.exitCode).2
      ++ " while copying " ++ basename item.source_path
  ∧ (runTask tgt (pre ++ (item, w) :: post)).result = TaskResult.completed
  ∧ (runTask tgt (pre ++ (item, w) :: post)).progressCalls
      = List.range' 1 (pre ++ (item, w) :: post).length
  ∧ (runTask tgt (pre ++ (item, w) :: post)).reloadCalls = (pre ++ (item, w) :: post).length
  ∧ LogRecord.completion w.timestamp (interpret_robocopy_exit_code w.exitCode).2 w.exitCode
      ∈ (runTask tgt (pre ++ (item, w) :: post)).log := by
  have hall : ∀ x ∈ pre ++ (item, w) :: post, x.2.outcome = ItemOutcome.finish none := by
    intro x hx
    rcases List.mem_append.mp hx with hl | hl
    · exact hpre x hl
    · rcases List.mem_cons.mp hl with hl | hl
      · rw [hl]; exact hw
      · exact hpost x hl
  have hmem : (item, w) ∈ pre ++ (item, w) :: post :=
    List.mem_append_right _ (List.mem_cons_self _ _)
  simp only [runTask]
  rw [runItems_all_normal _ _ _ _ hall, allNormalOut_eq]
  exact ⟨warning_mem_warningsOf _ (item, w) hmem hfail, rfl, rfl, rfl, rfl,
    completion_mem_tracesOf tgt _ (item, w) hmem⟩

theorem C4_partial_failure_tolerance_witness :
    warningMsg ⟨"C:/src/b.txt", false⟩
        ⟨"2024-01-01 11:00:00", [], 8, "", ItemOutcome.finish none⟩
      ∈ (runTask "D:/dst"
          [(⟨"C:/src/b.txt", false⟩,
            ⟨"2024-01-01 11:00:00", [], 8, "", ItemOutcome.finish none⟩)]).statusMessages
  ∧ (runTask "D:/dst"
      [(⟨"C:/src/b.txt", false⟩,
        ⟨"2024-01-01 11:00:00", [], 8, "", ItemOutcome.finish none⟩)]).result
      = TaskResult.completed := by
  have h := C4_partial_failure_tolerance "D:/dst" [] [] ⟨"C:/src/b.txt", false⟩
    ⟨"2024-01-01 11:00:00", [], 8, "", ItemOutcome.finish none⟩
    (by decide) (by decide) (by decide) (by decide)
  exact ⟨h.1, h.2.2.1⟩

theorem range'_snoc (s m : Nat) : List.range' s (m + 1) = List.range' s m ++ [s + m] := by
  induction m generalizing s with
  | zero => simp [range'_cons]
  | succ k ih =>
      rw [range'_cons s (k + 1), ih (s + 1), range'_cons s k, List.cons_append]
      have hidx : s + 1 + k = s + (k + 1) := by omega
      rw [hidx]

theorem runItems_split_at (tgt : String) (pre : List (SyncItem × ItemWorld))
    (item : SyncItem) (w : ItemWorld) (q : List (SyncItem × ItemWorld))
    (hpre : ∀ x ∈ pre, x.2.outcome = ItemOutcome.finish none) :
    runTask tgt (pre ++ (item, w) :: q) =
      RunOut.seq (allNormalOut tgt (pre.length + 1 + q.length) 1 pre)
        (runItems tgt (pre.length + 1 + q.length) (1 + pre.length) ((item, w) :: q)) := by
  have hlen : (pre ++ (item, w) :: q).length = pre.length + 1 + q.length := by
    simp [List.length_append]
    omega
  simp only [runTask]
  rw [hlen, runItems_append_normal tgt _ pre ((item, w) :: q) 1 hpre]

/-- C3: if a cancellation request is observed while processing item k, then
all earlier items' completion records are already in the log, the external
process for item k is killed exactly when it is still running and no process
is left running, the `Task canceled by user` Cancelled record is appended, the
"Sync canceled" status message is shown, the cancellation is re-raised to the
host (`TaskResult.canceled`), progress was only ever advanced for the earlier
items, and the items after k are never started (the run is independent of
them). -/
theorem C3_cancellation (tgt : String)
    (pre post : List (SyncItem × ItemWorld)) (item : SyncItem) (w : ItemWorld)
    (p : Nat) (still : Bool)
    (hpre : ∀ x ∈ pre, x.2.outcome = ItemOutcome.finish none)
    (hw : w.outcome = ItemOutcome.cancelAfter p still) :
    (runTask tgt (pre ++ (item, w) :: post)).result = TaskResult.canceled
  ∧ (runTask tgt (pre ++ (item, w) :: post)).processRunning = false
  ∧ (runTask tgt (pre ++ (item, w) :: post)).kills = (if still then 1 else 0)
  ∧ LogRecord.canceled w.timestamp ∈ (runTask tgt (pre ++ (item, w) :: post)).log
  ∧ LogRecord.render (LogRecord.canceled w.timestamp)
      = stampLine w.timestamp "Task canceled by user"
  ∧ "Sync canceled" ∈ (runTask tgt (pre ++ (item, w) :: post)).statusMessages
  ∧ (∀ x ∈ pre,
      LogRecord.completion x.2.timestamp (interpret_robocopy_exit_code x.2.exitCode).2 x.2.exitCode
        ∈ (runTask tgt (pre ++ (item, w) :: post)).log)
  ∧ (runTask tgt (pre ++ (item, w) :: post)).progressCalls = List.range' 1 pre.length
  ∧ (∀ post', post'.length = post.length →
      runTask tgt (pre ++ (item, w) :: post') = runTask tgt (pre ++ (item, w) :: post)) := by
  have key : ∀ q : List (SyncItem × ItemWorld),
      runTask tgt (pre ++ (item, w) :: q) =
        RunOut.seq (allNormalOut tgt (pre.length + 1 + q.length) 1 pre)
          (cancelOut tgt (pre.length + 1 + q.length) (1 + pre.length) item w p still) := by
    intro q
    rw [runItems_split_at tgt pre item w q hpre,
      runItems_cons_cancel tgt _ (1 + pre.length) item w q p still hw]
  refine ⟨?_, ?_, ?_, ?_, rfl, ?_, ?_, ?_, ?_⟩
  · rw [key post]; rfl
  · rw [key post]; rfl
  · rw [key post, allNormalOut_eq]
    exact Nat.zero_add _
  · rw [key post]
    simp [RunOut.seq, cancelOut]
  · rw [key post]
    simp [RunOut.seq, cancelOut]
  · intro x hx
    rw [key post, allNormalOut_eq]
    exact List.mem_append_left _ (completion_mem_tracesOf tgt pre x hx)
  · rw [key post, allNormalOut_eq]
    simp [RunOut.seq, cancelOut]
  · intro post' hq
    rw [key post', key post, hq]

theorem C3_cancellation_witness :
    (runTask "D:/dst"
      [(⟨"C:/src/a.txt", false⟩,
        ⟨"2024-01-01 10:00:00", ["a.txt 100%\n"], 1, "", ItemOutcome.finish none⟩),
       (⟨"C:/src/b.txt", false⟩,
        ⟨"2024-01-01 10:00:05", ["b.txt 10%\n", "b.txt 20%\n"], 0, "",
          ItemOutcome.cancelAfter 1 true⟩),
       (⟨"C:/src/c.txt", false⟩,
        ⟨"2024-01-01 10:00:09", [], 0, "", ItemOutcome.finish none⟩)]).result
      = TaskResult.canceled
  ∧ LogRecord.canceled "2024-01-01 10:00:05"
      ∈ (runTask "D:/dst"
          [(⟨"C:/src/a.txt", false⟩,
            ⟨"2024-01-01 10:00:00", ["a.txt 100%\n"], 1, "", ItemOutcome.finish none⟩),
           (⟨"C:/src/b.txt", false⟩,
            ⟨"2024-01-01 10:00:05", ["b.txt 10%\n", "b.txt 20%\n"], 0, "",
              ItemOutcome.cancelAfter 1 true⟩),
           (⟨"C:/src/c.txt", false⟩,
            ⟨"2024-01-01 10:00:09", [], 0, "", ItemOutcome.finish none⟩)]).log
  ∧ (runTask "D:/dst"
      [(⟨"C:/src/a.txt", false⟩,
        ⟨"2024-01-01 10:00:00", ["a.txt 100%\n"], 1, "", ItemOutcome.finish none⟩),
       (⟨"C:/src/b.txt", false⟩,
        ⟨"2024-01-01 10:00:05", ["b.txt 10%\n", "b.txt 20%\n"], 0, "",
          ItemOutcome.cancelAfter 1 true⟩),
       (⟨"C:/src/c.txt", false⟩,
        ⟨"2024-01-01 10:00:09", [], 0, "", ItemOutcome.finish none⟩)]).kills = 1 := by
  have h := C3_cancellation "D:/dst"
    [(⟨"C:/src/a.txt", false⟩,
      ⟨"2024-01-01 10:00:00", ["a.txt 100%\n"], 1, "", ItemOutcome.finish none⟩)]
    [(⟨"C:/src/c.txt", false⟩,
      ⟨"2024-01-01 10:00:09", [], 0, "", ItemOutcome.finish none⟩)]
    ⟨"C:/src/b.txt", false⟩
    ⟨"2024-01-01 10:00:05", ["b.txt 10%\n", "b.txt 20%\n"], 0, "",
      ItemOutcome.cancelAfter 1 true⟩
    1 true (by decide) (by decide)
  exact ⟨h.1, h.2.2.2.1, h.2.2.1⟩

/-- C6: an unclassified exception raised inside the task body (here: the
process spawn failing, or the refresh callback failing) is caught exactly once
at the task boundary: exactly one Error record containing the exception text
is appended to the log (rendered through the timestamped format), the
exception is re-raised so the host sees `TaskResult.failed`, and no later item
is processed (the run is independent of them). -/
theorem C6_unexpected_exception (tgt : String)
    (pre post : List (SyncItem × ItemWorld)) (item : SyncItem) (w : ItemWorld) (msg : String)
    (hpre : ∀ x ∈ pre, x.2.outcome = ItemOutcome.finish none)
    (hw : w.outcome = ItemOutcome.spawnError msg ∨ w.outcome = ItemOutcome.finish (some msg)) :
    (runTask tgt (pre ++ (item, w) :: post)).result = TaskResult.failed msg
  ∧ LogRecord.errorRecord w.timestamp msg ∈ (runTask tgt (pre ++ (item, w) :: post)).log
  ∧ (runTask tgt (pre ++ (item, w) :: post)).log.count
      (LogRecord.errorRecord w.timestamp msg) = 1
  ∧ LogRecord.render (LogRecord.errorRecord w.timestamp msg)
      = stampLine w.timestamp ("Error: " ++ msg)
  ∧ (∀ post', post'.length = post.length →
      runTask tgt (pre ++ (item, w) :: post') = runTask tgt (pre ++ (item, w) :: post)) := by
  rcases hw with hw | hw
  · have key : ∀ q : List (SyncItem × ItemWorld),
        runTask tgt (pre ++ (item, w) :: q) =
          RunOut.seq (allNormalOut tgt (pre.length + 1 + q.length) 1 pre)
            (spawnErrorOut tgt (pre.length + 1 + q.length) (1 + pre.length) item w msg) := by
      intro q
      rw [runItems_split_at tgt pre item w q hpre,
        runItems_cons_spawn tgt _ (1 + pre.length) item w q msg hw]
    refine ⟨by rw [key post]; rfl, ?_, ?_, rfl, ?_⟩
    · rw [key post]
      simp [RunOut.seq, spawnErrorOut]
    · rw [key post, allNormalOut_eq]
      show (tracesOf tgt pre ++ _).count _ = 1
      rw [List.count_append,
        List.count_eq_zero.mpr (errorRecord_not_mem_tracesOf tgt w.timestamp msg pre)]
      simp [spawnErrorOut, List.count_cons]
    · intro post' hq
      rw [key post', key post, hq]
  · have key : ∀ q : List (SyncItem × ItemWorld),
        runTask tgt (pre ++ (item, w) :: q) =
          RunOut.seq (allNormalOut tgt (pre.length + 1 + q.length) 1 pre)
            (reloadErrorOut tgt (pre.length + 1 + q.length) (1 + pre.length) item w msg) := by
      intro q
      rw [runItems_split_at tgt pre item w q hpre,
        runItems_cons_reload tgt _ (1 + pre.length) item w q msg hw]
    refine ⟨by rw [key post]; rfl, ?_, ?_, rfl, ?_⟩
    · rw [key post]
      simp [RunOut.seq, reloadErrorOut]
    · rw [key post, allNormalOut_eq]
      show (tracesOf tgt pre ++ _).count _ = 1
      rw [List.count_append,
        List.count_eq_zero.mpr (errorRecord_not_mem_tracesOf tgt w.timestamp msg pre),
        Nat.zero_add]
      show (itemTrace tgt item w ++ _).count _ = 1
      rw [List.count_append,
        List.count_eq_zero.mpr (errorRecord_not_mem_itemTrace tgt item w w.timestamp msg),
        Nat.zero_add]
      simp
    · intro post' hq
      rw [key post', key post, hq]

theorem C6_unexpected_exception_witness :
    (runTask "D:/dst"
      [(⟨"C:/src/a.txt", false⟩,
        ⟨"2024-01-01 12:00:00", [], 0, "", ItemOutcome.spawnError "FileNotFoundError"⟩)]).result
      = TaskResult.failed "FileNotFoundError"
  ∧ LogRecord.errorRecord "2024-01-01 12:00:00" "FileNotFoundError"
      ∈ (runTask "D:/dst"
          [(⟨"C:/src/a.txt", false⟩,
            ⟨"2024-01-01 12:00:00", [], 0, "",
              ItemOutcome.spawnError "FileNotFoundError"⟩)]).log
  ∧ (runTask "D:/dst"
      [(⟨"C:/src/a.txt", false⟩,
        ⟨"2024-01-01 12:00:00", [], 0, "",
          ItemOutcome.spawnError "FileNotFoundError"⟩)]).log.count
        (LogRecord.errorRecord "2024-01-01 12:00:00" "FileNotFoundError") = 1 := by
  have h := C6_unexpected_exception "D:/dst" [] [] ⟨"C:/src/a.txt", false⟩
    ⟨"2024-01-01 12:00:00", [], 0, "", ItemOutcome.spawnError "FileNotFoundError"⟩
    "FileNotFoundError" (by decide) (Or.inl (by decide))
  exact ⟨h.1, h.2.1, h.2.2.1⟩

/-- C9: if the refresh callback invoked after item i raises, the task does not
corrupt its state: every item processed so far (including item i) is fully
logged with its completion record, progress was advanced through item i, the
reload callback was invoked for item i, the error is appended to the log as
the final record before the task terminates with `TaskResult.failed`, no
process is left running, and the remaining items are never started (the run is
independent of them). -/
theorem C9_reload_callback_exception (tgt : String)
    (pre post : List (SyncItem × ItemWorld)) (item : SyncItem) (w : ItemWorld) (e : String)
    (hpre : ∀ x ∈ pre, x.2.outcome = ItemOutcome.finish none)
    (hw : w.outcome = ItemOutcome.finish (some e)) :
    (runTask tgt (pre ++ (item, w) :: post)).result = TaskResult.failed e
  ∧ (runTask tgt (pre ++ (item, w) :: post)).log
      = tracesOf tgt pre ++ (itemTrace tgt item w ++ [LogRecord.errorRecord w.timestamp e])
  ∧ (runTask tgt (pre ++ (item, w) :: post)).progressCalls = List.range' 1 (pre.length + 1)
  ∧ (runTask tgt (pre ++ (item, w) :: post)).reloadCalls = pre.length + 1
  ∧ (∀ x ∈ pre,
      LogRecord.completion x.2.timestamp (interpret_robocopy_exit_code x.2.exitCode).2 x.2.exitCode
        ∈ (runTask tgt (pre ++ (item, w) :: post)).log)
  ∧ LogRecord.completion w.timestamp (interpret_robocopy_exit_code w.exitCode).2 w.exitCode
      ∈ (runTask tgt (pre ++ (item, w) :: post)).log
  ∧ (runTask tgt (pre ++ (item, w) :: post)).processRunning = false
  ∧ (∀ post', post'.length = post.length →
      runTask tgt (pre ++ (item, w) :: post') = runTask tgt (pre ++ (item, w) :: post)) := by
  have key : ∀ q : List (SyncItem × ItemWorld),
      runTask tgt (pre ++ (item, w) :: q) =
        RunOut.seq (allNormalOut tgt (pre.length + 1 + q.length) 1 pre)
          (reloadErrorOut tgt (pre.length + 1 + q.length) (1 + pre.length) item w e) := by
    intro q
    rw [runItems_split_at tgt pre item w q hpre,
      runItems_cons_reload tgt _ (1 + pre.length) item w q e hw]
  refine ⟨by rw [key post]; rfl, ?_, ?_, ?_, ?_, ?_, by rw [key post]; rfl, ?_⟩
  · rw [key post, allNormalOut_eq]
    rfl
  · rw [key post, allNormalOut_eq]
    show List.range' 1 pre.length ++ [1 + pre.length] = _
    rw [range'_snoc 1 pre.length]
  · rw [key post, allNormalOut_eq]
    show pre.length + 1 = pre.length + 1
    rfl
  · intro x hx
    rw [key post, allNormalOut_eq]
    exact List.mem_append_left _ (completion_mem_tracesOf tgt pre x hx)
  · rw [key post]
    refine List.mem_append_right _ ?_
    show _ ∈ itemTrace tgt item w ++ _
    refine List.mem_append_left _ ?_
    simp [itemTrace, completionRecords]
  · intro post' hq
    rw [key post', key post, hq]

theorem C9_reload_callback_exception_witness :
    (runTask "D:/dst"
      [(⟨"C:/src/a.txt", false⟩,
        ⟨"2024-01-01 13:00:00", [], 1, "", ItemOutcome.finish (some "reload failed")⟩)]).result
      = TaskResult.failed "reload failed"
  ∧ (runTask "D:/dst"
      [(⟨"C:/src/a.txt", false⟩,
        ⟨"2024-01-01 13:00:00", [], 1, "",
          ItemOutcome.finish (some "reload failed")⟩)]).progressCalls = List.range' 1 1
  ∧ (runTask "D:/dst"
      [(⟨"C:/src/a.txt", false⟩,
        ⟨"2024-01-01 13:00:00", [], 1, "",
          ItemOutcome.finish (some "reload failed")⟩)]).reloadCalls = 1 := by
  have h := C9_reload_callback_exception "D:/dst" [] [] ⟨"C:/src/a.txt", false⟩
    ⟨"2024-01-01 13:00:00", [], 1, "", ItemOutcome.finish (some "reload failed")⟩
    "reload failed" (by decide) (by decide)
  exact ⟨h.1, h.2.2.1, h.2.2.2.1⟩

/-- C5 counterexample: the executing task writes process-output lines to the
log verbatim (`f.write(output_line)`), so a run whose robocopy process emits
`data.bin 50%\n` puts that exact text in the log as a line that does not start
with `[` — while every line of the `[YYYY-MM-DD HH:MM:SS] ` form does start
with `[`.  Hence not every line written to the log file carries the timestamp
format. -/
theorem C5_counterexample :
    LogRecord.outputLine "data.bin 50%\n"
      ∈ (runTask "D:/t"
          [(⟨"C:/data.bin", false⟩,
            ⟨"2024-05-06 07:08:09", ["data.bin 50%\n"], 1, "", ItemOutcome.finish none⟩)]).log
  ∧ startsWithLBracket (LogRecord.render (LogRecord.outputLine "data.bin 50%\n")) = false
  ∧ ∀ ts payload : String, startsWithLBracket (stampLine ts payload) = true := by
  refine ⟨by decide, by decide, ?_⟩
  intro ts payload
  obtain ⟨tsl⟩ := ts
  obtain ⟨pll⟩ := payload
  rfl

/-- C5 (amended): every record the executing task writes to the log is either
a process-output line written verbatim, exactly as produced by some item's
process — without a timestamp — or a Command, Completion, stderr-Errors,
Cancelled, or Error record rendered as `[<timestamp of some item>] <payload>`
followed by a newline. -/
theorem C5_log_record_format (tgt : String) (itemsW : List (SyncItem × ItemWorld))
    (r : LogRecord) (hr : r ∈ (runTask tgt itemsW).log) :
    (∃ l, r = LogRecord.outputLine l ∧ LogRecord.render r = l ∧ ∃ x ∈ itemsW, l ∈ x.2.lines)
  ∨ (∃ x ∈ itemsW, ∃ payload, LogRecord.render r = stampLine x.2.timestamp payload) := by
  simp only [runTask] at hr
  rcases runItems_log_shape tgt itemsW.length itemsW 1 r hr with ⟨l, h1, hx⟩ | h
  · exact Or.inl ⟨l, h1, by rw [h1]; rfl, hx⟩
  · exact Or.inr h

theorem C5_log_record_format_witness :
    (∃ l, LogRecord.outputLine "data.bin 50%\n" = LogRecord.outputLine l ∧
        LogRecord.render (LogRecord.outputLine "data.bin 50%\n") = l ∧
        ∃ x ∈ [((⟨"C:/data.bin", false⟩ : SyncItem),
          (⟨"2024-05-06 07:08:09", ["data.bin 50%\n"], 1, "",
            ItemOutcome.finish none⟩ : ItemWorld))], l ∈ x.2.lines)
  ∨ (∃ x ∈ [((⟨"C:/data.bin", false⟩ : SyncItem),
        (⟨"2024-05-06 07:08:09", ["data.bin 50%\n"], 1, "",
          ItemOutcome.finish none⟩ : ItemWorld))], ∃ payload,
        LogRecord.render (LogRecord.outputLine "data.bin 50%\n")
          = stampLine x.2.timestamp payload) :=
  C5_log_record_format "D:/t"
    [((⟨"C:/data.bin", false⟩ : SyncItem),
      (⟨"2024-05-06 07:08:09", ["data.bin 50%\n"], 1, "",
        ItemOutcome.finish none⟩ : ItemWorld))]
    (LogRecord.outputLine "data.bin 50%\n") (by decide)

theorem deleteIfExists_eq_none (c : Option String) : deleteIfExists c = none := by
  cases c <;> rfl

theorem foldl_appendRendered_some (l : List LogRecord) :
    ∀ s : String, l.foldl appendRendered (some s)
      = some (l.foldl (fun acc r => acc ++ r.render) s) := by
  induction l with
  | nil => intro s; rfl
  | cons r rest ih =>
      intro s
      show rest.foldl appendRendered (appendRendered (some s) r) = _
      rw [show appendRendered (some s) r = some (s ++ r.render) from rfl, ih]
      rfl

theorem submitExec_eq_fresh (c : Option String) (tgt : String)
    (itemsW : List (SyncItem × ItemWorld)) :
    submitExec c tgt itemsW = (runTask tgt itemsW).log.foldl appendRendered none := by
  simp only [submitExec, deleteIfExists_eq_none]

/-- C8: the executing command deletes `sync_commands.log` before submitting
the task (the pre-task state of the file is `none`, also right after a
previous submission), so the log produced by a submission consists exactly of
that run's records; in particular after the second of two sequential
submissions the log is the same as if the first had never happened — no
residue of the first task remains. -/
theorem C8_log_truncation (c₁ c₂ : Option String) (t₁ t₂ : String)
    (w₁ w₂ : List (SyncItem × ItemWorld)) :
    submitExec (submitExec c₁ t₁ w₁) t₂ w₂ = submitExec c₂ t₂ w₂
  ∧ (submitExec c₁ t₂ w₂).getD "" = renderedLog (runTask t₂ w₂).log
  ∧ deleteIfExists (submitExec c₁ t₁ w₁) = none := by
  refine ⟨by rw [submitExec_eq_fresh, submitExec_eq_fresh], ?_, deleteIfExists_eq_none _⟩
  rw [submitExec_eq_fresh]
  cases hl : (runTask t₂ w₂).log with
  | nil => rfl
  | cons r rest =>
      show (rest.foldl appendRendered (appendRendered none r)).getD "" = renderedLog (r :: rest)
      rw [show appendRendered none r = some ("" ++ r.render) from rfl,
        foldl_appendRendered_some rest ("" ++ r.render)]
      rfl
